import Mathlib

/-!
Verification development for the agentforce-mcp-demo repository.

The development shallowly embeds the three core pieces of the repository:

* the document renderer of `src/server-http.ts`
  (`convertDocsJsonToMarkdown`, `convertParagraphToMarkdown`,
  `convertTextRunToMarkdown`, `convertTableToMarkdown`, and the plain-text
  extraction / truncation logic of the `readGoogleDoc` tool);
* the credential resolution of `src/auth-cloudrun.ts`
  (`loadCredentialsFromEnvOrFile`, `loadSavedCredentialsIfExist`,
  `authenticate`, `authorize`);
* the client caching and REST dispatch of `src/server-http.ts` and
  `src/rest-api-wrapper.ts` (`initializeGoogleClient`, the tool registry and
  the `/api/mcp/call` endpoint).

Modelling conventions:

* JavaScript strings are Lean `String`s; `.length`, `.substring(0, n)`,
  `.trim()`, `.replace(/\n/g, ' ')`, `.startsWith` and `parseInt` are
  modelled by the structural character-list operations `jsLength`, `jsTake`,
  `jsTrim`, `jsReplaceNL`, `jsStartsWith` and `jsParseIntNat` below
  (characters rather than UTF-16 units; identical on ASCII), so every
  definition evaluates by kernel reduction.
* An absent (`undefined`/`null`) JavaScript field is `Option.none`.  Where a
  JavaScript truthiness test also rejects `""` or `0`, the embedding tests
  that explicitly.
* `JSON.parse` on an untrusted blob is modelled by classifying the blob up
  front: a blob either is malformed (parse throws) or carries its parsed
  value (see `JsonBlob`).
* Asynchronous upstream Google API calls are oracles passed in as explicit
  arguments: an oracle either returns a value or raises a JS error carrying
  an optional numeric `code` and an optional `message`.
-/

/-! ## Document snapshot data model (Google Docs API shapes used by the code) -/

/-- A `textStyle.link` object; its `url` may be absent. -/
structure DocLink where
  url : Option String
deriving DecidableEq, Repr

/-- The fields of `textRun.textStyle` read by `convertTextRunToMarkdown`. -/
structure RunStyle where
  bold : Bool
  italic : Bool
  underline : Bool
  strikethrough : Bool
  link : Option DocLink
deriving DecidableEq, Repr

/-- A `textRun`: its `content` string and optional `textStyle`. -/
structure TextRun where
  content : Option String
  textStyle : Option RunStyle
deriving DecidableEq, Repr

/-- A paragraph element: either a `textRun` or something else (ignored by the
renderers, which only look at `element.textRun`). -/
inductive ParaElem where
  | textRun (run : TextRun)
  | otherElem
deriving DecidableEq, Repr

/-- A paragraph: `paragraphStyle?.namedStyleType` (collapsed to an optional
string), presence of `bullet`, and the optional `elements` array. -/
structure Paragraph where
  namedStyleType : Option String
  bullet : Bool
  elements : Option (List ParaElem)
deriving DecidableEq, Repr

/-- A structural element of `body.content`: paragraph, table, sectionBreak or
anything else.  A table holds `tableRows`; a row's `tableCells` may be absent
(`none`); a cell's `content` is itself a list of structural elements, so
tables nest recursively exactly as in the Docs API. -/
inductive SElem where
  | paragraph (p : Paragraph)
  | table (rows : List (Option (List (List SElem))))
  | sectionBreak
  | otherStructural

/-- A table cell's `content`. -/
abbrev TableCell := List SElem

/-- A table row: `tableCells`, possibly absent. -/
abbrev TableRow := Option (List TableCell)

/-- `document.body`. -/
structure DocBody where
  content : Option (List SElem)

/-- The document snapshot returned by `documents.get`. -/
structure DocData where
  body : Option DocBody

/-- Concatenation of `f` over a list, in order: the JS `forEach`-append
accumulation pattern used throughout the renderer. -/
def concatStr (f : α → String) : List α → String
  | [] => ""
  | a :: as => f a ++ concatStr f as

/-! ## JavaScript string primitives, as structural list operations -/

/-- `s.length` (character count). -/
def jsLength (s : String) : Nat := s.toList.length

/-- `s.substring(0, n)`: the first `n` characters (all of them when
`n ≥ s.length`). -/
def jsTake (s : String) (n : Nat) : String := String.mk (s.toList.take n)

/-- `s.substring(n)` / the tail after `n` characters. -/
def jsDrop (s : String) (n : Nat) : String := String.mk (s.toList.drop n)

/-- `s.trim()`: strip whitespace from both ends. -/
def jsTrim (s : String) : String :=
  String.mk
    (((s.toList.dropWhile Char.isWhitespace).reverse.dropWhile
        Char.isWhitespace).reverse)

/-- `s.replace(/\n/g, ' ')`: flatten embedded newlines to spaces. -/
def jsReplaceNL (s : String) : String :=
  String.mk (s.toList.map fun c => if c = '\n' then ' ' else c)

/-- `s.startsWith(p)`. -/
def jsStartsWith (s p : String) : Bool :=
  s.toList.take p.toList.length = p.toList

/-! ## Inline style rendering (`convertTextRunToMarkdown`) -/

/-- Emphasis layer: `bold && italic` gives the triple marker, `bold` the
double marker, `italic` the single marker. -/
def applyEmphasis (s : RunStyle) (t : String) : String :=
  if s.bold ∧ s.italic then "***" ++ t ++ "***"
  else if s.bold then "**" ++ t ++ "**"
  else if s.italic then "*" ++ t ++ "*"
  else t

/-- Underline layer: applied only when the run has no `link` object at all
(`style.underline && !style.link`). -/
def applyUnderline (s : RunStyle) (t : String) : String :=
  if s.underline ∧ s.link.isNone then "<u>" ++ t ++ "</u>" else t

/-- Strikethrough layer. -/
def applyStrike (s : RunStyle) (t : String) : String :=
  if s.strikethrough then "~~" ++ t ++ "~~" else t

/-- Link layer: wraps in `[…](url)` only when `style.link?.url` is truthy
(present and non-empty). -/
def applyLinkWrap (s : RunStyle) (t : String) : String :=
  match s.link with
  | some l =>
    match l.url with
    | some u => if u = "" then t else "[" ++ t ++ "](" ++ u ++ ")"
    | none => t
  | none => t

/-- `convertTextRunToMarkdown` from `src/server-http.ts`: the run's content
(`textRun.content || ''`), decorated layer by layer when a `textStyle` is
present. -/
def convertTextRunToMarkdown (r : TextRun) : String :=
  let text0 := r.content.getD ""
  match r.textStyle with
  | none => text0
  | some s =>
    let t1 := applyEmphasis s text0
    let t2 := applyUnderline s t1
    let t3 := applyStrike s t2
    applyLinkWrap s t3

/-! ## Paragraph rendering (`convertParagraphToMarkdown`) -/

/-- The longest digit run at the front of the string. -/
def leadingDigits : List Char → List Char
  | [] => []
  | c :: rest => if c.isDigit then c :: leadingDigits rest else []

/-- JavaScript `parseInt` as used on `styleType.replace('HEADING_', '')`:
parse the leading digit run; a string with no leading digit gives `NaN`,
which the subsequent `'#'.repeat(Math.min(·, 6))` coerces to 0, so the NaN
case is folded into the value 0 here. -/
def jsParseIntNat (s : String) : Nat :=
  (leadingDigits s.toList).foldl (fun acc c => acc * 10 + (c.toNat - 48)) 0

/-- Heading detection of `convertParagraphToMarkdown`: `HEADING_k` styles map
to level `k`, `TITLE` to 1, `SUBTITLE` to 2; everything else is not a
heading.  Returns `(isHeading, headingLevel)`. -/
def paragraphHeading (namedStyleType : Option String) : Bool × Nat :=
  match namedStyleType with
  | some st =>
    if jsStartsWith st "HEADING_" then (true, jsParseIntNat (jsDrop st 8))
    else if st = "TITLE" then (true, 1)
    else if st = "SUBTITLE" then (true, 2)
    else (false, 0)
  | none => (false, 0)

/-- The concatenated markdown of a paragraph's text runs (non-`textRun`
elements contribute nothing). -/
def paragraphRunsMarkdown (p : Paragraph) : String :=
  match p.elements with
  | some es =>
    concatStr
      (fun e =>
        match e with
        | ParaElem.textRun r => convertTextRunToMarkdown r
        | ParaElem.otherElem => "") es
  | none => ""

/-- `convertParagraphToMarkdown` from `src/server-http.ts`. -/
def convertParagraphToMarkdown (p : Paragraph) : String :=
  let hd := paragraphHeading p.namedStyleType
  let isList := p.bullet
  let text := paragraphRunsMarkdown p
  if hd.1 ∧ jsTrim text ≠ "" then
    String.mk (List.replicate (min hd.2 6) '#') ++ " " ++ jsTrim text ++ "\n\n"
  else if isList ∧ jsTrim text ≠ "" then
    "- " ++ jsTrim text ++ "\n"
  else if jsTrim text ≠ "" then
    jsTrim text ++ "\n\n"
  else
    "\n"

/-! ## Table rendering (`convertTableToMarkdown`) -/

/-- One piece of a cell's text: inside a cell only `element.paragraph` is
inspected, and within it only truthy `pe.textRun?.content`, each piece
newline-flattened and trimmed.  Nested tables and section breaks inside a
cell contribute nothing. -/
def cellPieceText (e : SElem) : String :=
  match e with
  | SElem.paragraph p =>
    match p.elements with
    | some es =>
      concatStr
        (fun pe =>
          match pe with
          | ParaElem.textRun r =>
            match r.content with
            | some c => if c = "" then "" else jsTrim (jsReplaceNL c)
            | none => ""
          | ParaElem.otherElem => "") es
    | none => ""
  | _ => ""

/-- A table cell's rendered text: concatenation of its pieces. -/
def cellText (cell : TableCell) : String :=
  concatStr cellPieceText cell

/-- The body line for a row's cells: `|` then ` cell |` per cell. -/
def rowLine (cells : List TableCell) : String :=
  "|" ++ concatStr (fun c => " " ++ cellText c ++ " |") cells

/-- The header-separator line for a row's cells: `|` then ` --- |` per cell. -/
def sepLine (cells : List TableCell) : String :=
  "|" ++ concatStr (fun _ => " --- |") cells

/-- One `forEach` step of `convertTableToMarkdown`: the accumulator pairs the
markdown built so far with the `isFirstRow` flag.  A row with absent
`tableCells` is skipped entirely (the flag does not change). -/
def tableStep (acc : String × Bool) (row : TableRow) : String × Bool :=
  match row with
  | none => acc
  | some cells =>
    let acc1 := acc.1 ++ rowLine cells ++ "\n"
    if acc.2 then (acc1 ++ sepLine cells ++ "\n", false) else (acc1, false)

/-- `convertTableToMarkdown` from `src/server-http.ts`: empty (or absent,
collapsed to `[]`) `tableRows` render as `""`; otherwise a leading newline,
the folded rows, and a trailing newline. -/
def convertTableToMarkdown (rows : List TableRow) : String :=
  if rows.isEmpty then ""
  else (rows.foldl tableStep ("\n", true)).1 ++ "\n"

/-! ## Whole-document markdown (`convertDocsJsonToMarkdown`) -/

/-- Markdown for one structural element. -/
def selemMarkdown (e : SElem) : String :=
  match e with
  | SElem.paragraph p => convertParagraphToMarkdown p
  | SElem.table rows => convertTableToMarkdown rows
  | SElem.sectionBreak => "\n---\n\n"
  | SElem.otherStructural => ""

/-- `convertDocsJsonToMarkdown` from `src/server-http.ts`: the sentinel is
returned only when `docData.body?.content` is absent; a present (possibly
empty) content list is rendered and trimmed. -/
def convertDocsJsonToMarkdown (d : DocData) : String :=
  match d.body with
  | none => "Document appears to be empty."
  | some b =>
    match b.content with
    | none => "Document appears to be empty."
    | some elems => jsTrim (concatStr selemMarkdown elems)

/-! ## Plain-text extraction and the `readGoogleDoc` text/markdown branches -/

/-- Raw text of a paragraph's runs (`pe.textRun?.content`, unstyled). -/
def extractParagraphText (p : Paragraph) : String :=
  match p.elements with
  | some es =>
    concatStr
      (fun pe =>
        match pe with
        | ParaElem.textRun r => r.content.getD ""
        | ParaElem.otherElem => "") es
  | none => ""

/-- Raw text of a cell element in the text branch: only paragraphs inside the
cell contribute (`cellElement.paragraph?.elements`). -/
def extractCellElementText (e : SElem) : String :=
  match e with
  | SElem.paragraph p => extractParagraphText p
  | _ => ""

/-- Raw text of a structural element in the `readGoogleDoc` text branch:
paragraph runs, plus one level of table cells. -/
def extractSElemText (e : SElem) : String :=
  match e with
  | SElem.paragraph p => extractParagraphText p
  | SElem.table rows =>
    concatStr
      (fun row =>
        match row with
        | some cells => concatStr (fun cell => concatStr extractCellElementText cell) cells
        | none => "") rows
  | _ => ""

/-- The accumulated `textContent` of the `readGoogleDoc` text branch. -/
def extractText (d : DocData) : String :=
  match d.body with
  | none => ""
  | some b =>
    match b.content with
    | none => ""
    | some elems => concatStr extractSElemText elems

/-- The `readGoogleDoc` text branch (`src/server-http.ts`, lines 280–319):
sentinel for blank text, otherwise a `Content …` envelope, truncated if a
truthy `maxLength` is exceeded. -/
def readDocText (d : DocData) (maxLength : Option Nat) : String :=
  let textContent := extractText d
  if jsTrim textContent = "" then "Document found, but appears empty."
  else
    let totalLength := jsLength textContent
    match maxLength with
    | some m =>
      if m ≠ 0 ∧ m < totalLength then
        "Content (truncated to " ++ toString m ++ " chars):\n---\n" ++ jsTake textContent m
          ++ "\n\n..."
      else
        "Content (" ++ toString totalLength ++ " characters):\n---\n" ++ textContent
    | none => "Content (" ++ toString totalLength ++ " characters):\n---\n" ++ textContent

/-- The final post-processing step of the `readGoogleDoc` markdown branch:
truncation of the fully rendered string. -/
def truncateMarkdown (md : String) (maxLength : Option Nat) : String :=
  match maxLength with
  | some m =>
    if m ≠ 0 ∧ m < jsLength md then
      jsTake md m ++ "\n\n... [Markdown truncated to " ++ toString m ++ " chars of "
        ++ toString (jsLength md) ++ " total.]"
    else md
  | none => md

/-- The `readGoogleDoc` markdown branch (`src/server-http.ts`, lines
267–278): render fully, then truncate. -/
def readDocMarkdown (d : DocData) (maxLength : Option Nat) : String :=
  truncateMarkdown (convertDocsJsonToMarkdown d) maxLength

/-! ## Credential resolution (`src/auth-cloudrun.ts`) -/

/-- A raw JSON blob (an environment variable's value or a file's contents) as
seen by `JSON.parse`: either malformed (parsing throws) or carrying its
parsed value of shape `α`. -/
inductive JsonBlob (α : Type) where
  | malformed (raw : String)
  | wellFormed (v : α)
deriving DecidableEq, Repr

/-- `JSON.parse` on a classified blob. -/
def JsonBlob.parse : JsonBlob α → Option α
  | .malformed _ => none
  | .wellFormed v => some v

/-- The client-secrets object nested under `installed` or `web`. -/
structure ClientKey where
  client_id : String
  client_secret : String
  redirect_uris : Option (List String)
deriving DecidableEq, Repr

/-- The parsed app-registration config (`credentials.json` shape). -/
structure CredJson where
  installed : Option ClientKey
  web : Option ClientKey
deriving DecidableEq, Repr

/-- The parsed stored token (`token.json` shape); only the fields the model
needs. -/
structure TokenJson where
  access_token : Option String
  refresh_token : Option String
deriving DecidableEq, Repr

/-- The environment: `process.env.GOOGLE_CREDENTIALS` / `GOOGLE_TOKEN`.
A field is `none` when the variable is unset or empty (JS truthiness). -/
structure EnvState where
  googleCredentials : Option (JsonBlob CredJson)
  googleToken : Option (JsonBlob TokenJson)

/-- The local credential files: `none` means absent/unreadable (the
`fs.readFile` call throws). -/
structure FSState where
  credentialsFile : Option (JsonBlob CredJson)
  tokenFile : Option (JsonBlob TokenJson)

/-- The file half of `loadCredentialsFromEnvOrFile`: both files must be
readable and parse. -/
def loadCredentialsFromFiles (fs : FSState) : Option (CredJson × TokenJson) :=
  match fs.credentialsFile, fs.tokenFile with
  | some cb, some tb =>
    match cb.parse, tb.parse with
    | some c, some t => some (c, t)
    | _, _ => none
  | _, _ => none

/-- `loadCredentialsFromEnvOrFile` from `src/auth-cloudrun.ts`: when both
environment values are present it tries to parse them; the catch around the
parse only logs, so a parse failure falls through to the file source. -/
def loadCredentialsFromEnvOrFile (env : EnvState) (fs : FSState) :
    Option (CredJson × TokenJson) :=
  match env.googleCredentials, env.googleToken with
  | some cb, some tb =>
    match cb.parse, tb.parse with
    | some c, some t => some (c, t)
    | _, _ => loadCredentialsFromFiles fs
  | _, _ => loadCredentialsFromFiles fs

/-- The constructed `OAuth2Client`: the fields `loadSavedCredentialsIfExist`
installs on it. -/
structure OAuth2ClientModel where
  clientId : String
  clientSecret : String
  redirectUri : String
  token : TokenJson
deriving DecidableEq, Repr

/-- `redirect_uris?.[0] || 'urn:ietf:wg:oauth:2.0:oob'`. -/
def firstRedirectOr (uris : Option (List String)) : String :=
  match uris with
  | some (u :: _) => if u = "" then "urn:ietf:wg:oauth:2.0:oob" else u
  | _ => "urn:ietf:wg:oauth:2.0:oob"

/-- `loadSavedCredentialsIfExist` from `src/auth-cloudrun.ts`: resolve the
raw pair, pick `credentials.installed || credentials.web`, build the client
and install the token.  The `getTokenInfo` probe is non-fatal and has no
effect on the returned client, so it is not modelled. -/
def loadSavedCredentialsIfExist (env : EnvState) (fs : FSState) :
    Option OAuth2ClientModel :=
  match loadCredentialsFromEnvOrFile env fs with
  | none => none
  | some (cred, tok) =>
    match (match cred.installed with | some k => some k | none => cred.web) with
    | none => none
    | some key =>
      some ⟨key.client_id, key.client_secret, firstRedirectOr key.redirect_uris, tok⟩

/-- The outcome of credential resolution: a constructed client, a thrown
credential error, or entry into the interactive (human-in-the-loop)
authentication flow of `authenticate` (readline prompt). -/
inductive AuthOutcome where
  | ok (client : OAuth2ClientModel)
  | credError (msg : String)
  | interactive
deriving DecidableEq, Repr

/-- `authenticate` from `src/auth-cloudrun.ts`, up to its first interaction:
in a managed environment (`process.env.GOOGLE_CREDENTIALS` set) it throws
before any prompt; otherwise it enters the interactive flow. -/
def authenticate (env : EnvState) : AuthOutcome :=
  if env.googleCredentials.isSome then
    .credError "Cannot run interactive authentication in Cloud Run environment."
  else .interactive

/-- `authorize` from `src/auth-cloudrun.ts`. -/
def authorize (env : EnvState) (fs : FSState) : AuthOutcome :=
  match loadSavedCredentialsIfExist env fs with
  | some client => .ok client
  | none =>
    if env.googleCredentials.isSome then
      .credError "No valid credentials found in Cloud Run environment. Please check Secret Manager configuration."
    else authenticate env

/-! ## Client caching (`initializeGoogleClient`, both servers) -/

/-- The module-level mutable state of both servers: `authClient`,
`googleDocs`, `googleDrive`.  The docs/drive clients are represented by the
auth client they wrap. -/
structure GClientState where
  authClient : Option OAuth2ClientModel
  googleDocs : Option OAuth2ClientModel
  googleDrive : Option OAuth2ClientModel
deriving DecidableEq, Repr

/-- `initializeGoogleClient` from `src/server-http.ts`.  `auth` is the
outcome `await authorize()` would have (success or throw) if called.  The
result is the new state, the returned-or-thrown result, and whether
`authorize` was actually called. -/
def initializeGoogleClient (s : GClientState)
    (auth : Except String OAuth2ClientModel) :
    GClientState × Except String GClientState × Bool :=
  if s.googleDocs.isSome ∧ s.googleDrive.isSome then (s, .ok s, false)
  else
    match s.authClient with
    | none =>
      match auth with
      | .ok c =>
        let s1 : GClientState := ⟨some c, some c, some c⟩
        (s1, .ok s1, true)
      | .error _ =>
        (⟨none, none, none⟩,
         .error "Google client initialization failed. Cannot start server tools.", true)
    | some a =>
      let s1 : GClientState :=
        ⟨some a, some (s.googleDocs.getD a), some (s.googleDrive.getD a)⟩
      (s1, .ok s1, false)

/-- `initializeGoogleClient` from `src/rest-api-wrapper.ts`: no
`authClient`-reuse branch; on a throw the previous state is left as it was. -/
def restInitializeGoogleClient (s : GClientState)
    (auth : Except String OAuth2ClientModel) :
    GClientState × Except String GClientState × Bool :=
  if s.googleDocs.isSome ∧ s.googleDrive.isSome then (s, .ok s, false)
  else
    match auth with
    | .ok c =>
      let s1 : GClientState := ⟨some c, some c, some c⟩
      (s1, .ok s1, true)
    | .error e => (s, .error e, true)

/-! ## REST dispatch (`src/rest-api-wrapper.ts`) -/

/-- A thrown JavaScript error as the handlers see it: an optional numeric
`code` (Google API errors carry 403/404), an optional `message`, and whether
it is a `UserError` (only relevant in the MCP server). -/
structure JsError where
  isUserError : Bool
  code : Option Nat
  message : Option String
deriving DecidableEq, Repr

/-- The result of one upstream API call: a value or a raised `JsError`. -/
inductive JsCall (α : Type) where
  | ok (v : α)
  | raise (e : JsError)

/-- `${x}` interpolation of a possibly-undefined string. -/
def jsTemplate (o : Option String) : String := o.getD "undefined"

/-- A file entry as formatted by `getRecentGoogleDocs`/`searchGoogleDocs`.
The locale-dependent date rendering (`new Date(...).toLocaleString()`) and
the owner lookup (`doc.owners?.[0]?.displayName || 'Unknown'`) are abstracted
into the pre-rendered `modifiedDisplay` and `owner` fields. -/
structure FileMeta where
  name : Option String
  id : Option String
  modifiedDisplay : String
  owner : String
  link : Option String
deriving DecidableEq, Repr

/-- The upstream Google API as an oracle.  `listRecent` takes the already
computed `(maxResults, daysBack)` pair (the real query embeds a wall-clock
cutoff date, abstracted here); `listSearch` takes the interpolated query
string. -/
structure Upstream where
  getDoc : Option String → JsCall DocData
  createDoc : String → JsCall (Option String × Option String)
  listRecent : Nat → Nat → JsCall (List FileMeta)
  listSearch : String → JsCall (List FileMeta)

/-- The argument bag of `/api/mcp/call` (`arguments`), a JS object: every
field the four tools destructure, each possibly absent. -/
structure ArgBag where
  title : Option String
  documentId : Option String
  maxLength : Option Nat
  searchQuery : Option String
  maxResults : Option Nat
  daysBack : Option Nat
deriving DecidableEq, Repr

/-- The empty argument bag (`toolArgs || {}`). -/
def emptyArgBag : ArgBag := ⟨none, none, none, none, none, none⟩

/-- The numbered `**name** / ID / Last Modified / Link` lines for a file
list, joined with blank lines. -/
def formatFileList (docs : List FileMeta) : String :=
  String.intercalate "\n\n"
    ((docs.enum.map fun (i, doc) =>
      toString (i + 1) ++ ". **" ++ jsTemplate doc.name ++ "**\n   ID: "
        ++ jsTemplate doc.id ++ "\n   Last Modified: " ++ doc.modifiedDisplay
        ++ " by " ++ doc.owner ++ "\n   Link: " ++ jsTemplate doc.link))

/-- `getRecentGoogleDocs` from `src/rest-api-wrapper.ts`: defaults
`maxResults = 10`, `daysBack = 30`; no required fields.  Failures are
wrapped as `Failed to get recent docs: …`. -/
def execGetRecentGoogleDocs (args : ArgBag) (up : Upstream) : Except String String :=
  let maxResults := args.maxResults.getD 10
  let daysBack := args.daysBack.getD 30
  match up.listRecent maxResults daysBack with
  | .ok docs =>
    .ok ("Recently modified Google Document(s) (last " ++ toString daysBack
      ++ " days):\n\n" ++ formatFileList docs)
  | .raise e => .error ("Failed to get recent docs: " ++ jsTemplate e.message)

/-- The paragraph-only text extraction of the REST `readGoogleDoc` (tables
are ignored here; `pe.textRun.content` is appended unguarded, so an absent
content interpolates as in JS string concatenation). -/
def restExtractText (d : DocData) : String :=
  match d.body with
  | none => ""
  | some b =>
    match b.content with
    | none => ""
    | some elems =>
      concatStr
        (fun e =>
          match e with
          | SElem.paragraph p =>
            (match p.elements with
             | some es =>
               concatStr
                 (fun pe =>
                   match pe with
                   | ParaElem.textRun r => jsTemplate r.content
                   | ParaElem.otherElem => "") es
             | none => "")
          | _ => "") elems

/-- `readGoogleDoc` from `src/rest-api-wrapper.ts`: no `documentId` check —
the id (possibly absent) is passed straight to the upstream call.  A truthy
`maxLength` below the length truncates with a bare `...` suffix.  Failures
are wrapped as `Failed to read document: …`. -/
def execReadGoogleDoc (args : ArgBag) (up : Upstream) : Except String String :=
  match up.getDoc args.documentId with
  | .ok d =>
    let t := restExtractText d
    let t2 :=
      match args.maxLength with
      | some m => if m ≠ 0 ∧ m < jsLength t then jsTake t m ++ "..." else t
      | none => t
    .ok ("Document Content:\n---\n" ++ t2)
  | .raise e => .error ("Failed to read document: " ++ jsTemplate e.message)

/-- `searchGoogleDocs` from `src/rest-api-wrapper.ts`: no `searchQuery`
check — an absent query interpolates as `undefined` into the Drive query
string.  Failures are wrapped as `Failed to search documents: …`. -/
def execSearchGoogleDocs (args : ArgBag) (up : Upstream) : Except String String :=
  let sq := jsTemplate args.searchQuery
  let q := "mimeType='application/vnd.google-apps.document' and (name contains '"
    ++ sq ++ "' or fullText contains '" ++ sq ++ "')"
  match up.listSearch q with
  | .ok docs => .ok ("Search results for \"" ++ sq ++ "\":\n\n" ++ formatFileList docs)
  | .raise e => .error ("Failed to search documents: " ++ jsTemplate e.message)

/-- `createDocument` from `src/rest-api-wrapper.ts`: the only required-field
check in the registry — a falsy `title` (absent or empty) throws
`title is required`, which the handler's own catch wraps as
`Failed to create document: title is required`. -/
def execCreateDocument (args : ArgBag) (up : Upstream) : Except String String :=
  match args.title with
  | none => .error "Failed to create document: title is required"
  | some t =>
    if t = "" then .error "Failed to create document: title is required"
    else
      match up.createDoc t with
      | .ok (docId, docTitle) =>
        .ok ("Created document: \"" ++ jsTemplate docTitle ++ "\"\nDocument ID: "
          ++ jsTemplate docId ++ "\nView: https://docs.google.com/document/d/"
          ++ jsTemplate docId ++ "/edit")
      | .raise e => .error ("Failed to create document: " ++ jsTemplate e.message)

/-- The names in the `tools` registry. -/
def toolNames : List String :=
  ["getRecentGoogleDocs", "readGoogleDoc", "searchGoogleDocs", "createDocument"]

/-- `tool.execute` for a registered name. -/
def restToolExecute (name : String) (args : ArgBag) (up : Upstream) :
    Except String String :=
  if name = "getRecentGoogleDocs" then execGetRecentGoogleDocs args up
  else if name = "readGoogleDoc" then execReadGoogleDoc args up
  else if name = "searchGoogleDocs" then execSearchGoogleDocs args up
  else execCreateDocument args up

/-- An HTTP response of the REST wrapper: status, the `success` flag, and
the optional `error` / `data` fields of the JSON body. -/
structure RestResponse where
  status : Nat
  success : Bool
  error : Option String
  data : Option String
deriving DecidableEq, Repr

/-- The `/api/mcp/call` endpoint of `src/rest-api-wrapper.ts`.  `toolName`
is `none` when absent (a falsy empty string is checked separately, as in
JS); `init` is the outcome `initializeGoogleClient` would have; `up` is the
upstream API.  Every handler failure lands in the endpoint's catch and
becomes a 500 with the error's message — there is no per-kind mapping. -/
def restDispatch (toolName : Option String) (toolArgs : Option ArgBag)
    (init : Except String Unit) (up : Upstream) : RestResponse :=
  match toolName with
  | none => ⟨400, false, some "toolName is required", none⟩
  | some name =>
    if name = "" then ⟨400, false, some "toolName is required", none⟩
    else if ¬ toolNames.contains name then
      ⟨404, false, some ("Tool '" ++ name ++ "' not found"), none⟩
    else
      match init with
      | .error m => ⟨500, false, some m, none⟩
      | .ok _ =>
        match restToolExecute name (toolArgs.getD emptyArgBag) up with
        | .ok s => ⟨200, true, none, some s⟩
        | .error m => ⟨500, false, some m, none⟩

/-! ## The MCP server's `readGoogleDoc` error classification
(`src/server-http.ts`, catch block at lines 321–327) -/

/-- A tool outcome at the FastMCP boundary: a successful string, or a thrown
`UserError` (the transport-sanctioned error channel).  The catch block turns
every non-`UserError` exception into a `UserError`, so no other outcome
exists. -/
inductive McpOutcome where
  | success (s : String)
  | userError (s : String)
deriving DecidableEq, Repr

/-- `error.message || 'Unknown error'`. -/
def jsMsgOrUnknown (m : Option String) : String :=
  match m with
  | some s => if s = "" then "Unknown error" else s
  | none => "Unknown error"

/-- The catch block of `readGoogleDoc` in `src/server-http.ts`: rethrow
`UserError`s, map code 404 to the not-found message, code 403 to the
permission-denied message, anything else to the internal wrapper carrying
the underlying message. -/
def readGoogleDocCatch (documentId : String) (e : JsError) : McpOutcome :=
  if e.isUserError then .userError (e.message.getD "")
  else if e.code = some 404 then
    .userError ("Doc not found (ID: " ++ documentId ++ ").")
  else if e.code = some 403 then
    .userError ("Permission denied for doc (ID: " ++ documentId ++ ").")
  else .userError ("Failed to read doc: " ++ jsMsgOrUnknown e.message)

/-- The `readGoogleDoc` tool of the MCP server, text format: fetch, render
the text branch, classify any raised error. -/
def readGoogleDocExecText (documentId : String) (maxLength : Option Nat)
    (fetch : JsCall DocData) : McpOutcome :=
  match fetch with
  | .ok d => .success (readDocText d maxLength)
  | .raise e => readGoogleDocCatch documentId e

/-- The `readGoogleDoc` tool of the MCP server, markdown format. -/
def readGoogleDocExecMarkdown (documentId : String) (maxLength : Option Nat)
    (fetch : JsCall DocData) : McpOutcome :=
  match fetch with
  | .ok d => .success (readDocMarkdown d maxLength)
  | .raise e => readGoogleDocCatch documentId e

/-! ## Helper lemmas -/

theorem concatStr_append (f : α → String) (l1 l2 : List α) :
    concatStr f (l1 ++ l2) = concatStr f l1 ++ concatStr f l2 := by
  induction l1 with
  | nil => simp [concatStr]
  | cons a as ih => simp [concatStr, ih, String.append_assoc]

theorem foldl_tableStep_after (rows : List TableRow) (acc : String)
    (h : ∀ row ∈ rows, row ≠ none) :
    rows.foldl tableStep (acc, false)
      = (acc ++ concatStr (fun row => rowLine (row.getD []) ++ "\n") rows, false) := by
  induction rows generalizing acc with
  | nil => simp [concatStr]
  | cons r rs ih =>
    match r with
    | none => exact absurd rfl (h none (by simp))
    | some cells =>
      show List.foldl tableStep (tableStep (acc, false) (some cells)) rs = _
      rw [show tableStep (acc, false) (some cells)
          = (acc ++ rowLine cells ++ "\n", false) from rfl]
      rw [ih _ (fun row hrow => h row (List.mem_cons_of_mem _ hrow))]
      simp [concatStr, String.append_assoc]

/-! ## Claims -/

/-- Concrete fixtures used by witnesses and counterexamples. -/
def runA : TextRun := ⟨some "alpha", none⟩

def runB : TextRun := ⟨some "beta", none⟩

/-- A one-run paragraph structural element. -/
def paraOf (r : TextRun) : SElem :=
  SElem.paragraph ⟨none, false, some [ParaElem.textRun r]⟩

def cellsA : List TableCell := [[paraOf runA]]

def cellsB : List TableCell := [[paraOf runB]]

/-- C6: for a table whose rows all carry at least one cell, the markdown is a
leading blank line, then the first row's body line, then exactly one
header-separator line (derived from the first row, placed immediately after
it, independent of content), then one body line per remaining row, then a
trailing blank line: N body lines and exactly one separator. -/
theorem c6_table_layout (cells : List TableCell) (rs : List TableRow)
    (_hc : cells ≠ [])
    (h : ∀ row ∈ rs, ∃ cs : List TableCell, row = some cs ∧ cs ≠ []) :
    convertTableToMarkdown (some cells :: rs)
      = "\n" ++ rowLine cells ++ "\n" ++ sepLine cells ++ "\n"
        ++ concatStr (fun row => rowLine (row.getD []) ++ "\n") rs ++ "\n" := by
  unfold convertTableToMarkdown
  rw [if_neg (by simp)]
  show (List.foldl tableStep (tableStep ("\n", true) (some cells)) rs).1 ++ "\n" = _
  rw [show tableStep ("\n", true) (some cells)
      = ("\n" ++ rowLine cells ++ "\n" ++ sepLine cells ++ "\n", false) from rfl]
  rw [foldl_tableStep_after rs _ (by
    intro row hrow
    obtain ⟨cs, hcs, -⟩ := h row hrow
    simp [hcs])]

/-- C6 witness: a concrete two-row table (one cell per row) rendered through
the theorem: two body lines and one separator line right after the first. -/
theorem c6_table_layout_witness :
    convertTableToMarkdown [some cellsA, some cellsB]
      = "\n| alpha |\n| --- |\n| beta |\n\n" :=
  (c6_table_layout cellsA [some cellsB] (by unfold cellsA; exact List.cons_ne_nil _ _)
    (by
      intro row hrow
      exact ⟨cellsB, by simpa using hrow, by unfold cellsB; exact List.cons_ne_nil _ _⟩)).trans
    (by decide)

/-- C10: a cell's rendered text comes only from paragraphs directly inside
the cell; a table nested inside a cell contributes nothing (the renderer
does not recurse into nested tables), and indeed every non-paragraph cell
element is dropped. -/
theorem c10_nested_table_ignored (c1 c2 : List SElem) (rows : List TableRow) :
    cellText (c1 ++ SElem.table rows :: c2) = cellText (c1 ++ c2)
    ∧ ∀ cell : TableCell,
        cellText cell
          = cellText (cell.filter fun e =>
              match e with | SElem.paragraph _ => true | _ => false) := by
  constructor
  · show concatStr _ _ = concatStr _ _
    rw [concatStr_append, concatStr_append]
    show cellText c1 ++ (cellPieceText (SElem.table rows) ++ cellText c2) = _
    rw [show cellPieceText (SElem.table rows) = "" from rfl]
    rw [String.empty_append]
    rfl
  · intro cell
    induction cell with
    | nil => rfl
    | cons e es ih =>
      match e with
      | SElem.paragraph p =>
        show cellPieceText (SElem.paragraph p) ++ cellText es = _
        simpa [List.filter, cellText, concatStr] using congrArg
          (fun s => cellPieceText (SElem.paragraph p) ++ s) ih
      | SElem.table r =>
        show cellPieceText (SElem.table r) ++ cellText es = _
        simpa [List.filter, cellText, concatStr] using ih
      | SElem.sectionBreak =>
        show cellPieceText SElem.sectionBreak ++ cellText es = _
        simpa [List.filter, cellText, concatStr] using ih
      | SElem.otherStructural =>
        show cellPieceText SElem.otherStructural ++ cellText es = _
        simpa [List.filter, cellText, concatStr] using ih

/-- C7: inline style markers compose in the fixed precedence
emphasis → underline → strikethrough → link: the rendered run is the link
layer applied to the strike layer applied to the underline layer applied to
the emphasis layer; bold together with italic produces the single triple
marker (never a nested double+single), bold alone the double marker, italic
alone the single marker; underline is skipped whenever the run carries a
link object; a present non-empty link URL wraps the decorated text
outermost. -/
theorem c7_inline_style_composition (r : TextRun) (s : RunStyle)
    (h : r.textStyle = some s) :
    convertTextRunToMarkdown r
      = applyLinkWrap s (applyStrike s (applyUnderline s (applyEmphasis s (r.content.getD ""))))
    ∧ (s.bold = true → s.italic = true →
        applyEmphasis s (r.content.getD "") = "***" ++ r.content.getD "" ++ "***")
    ∧ (s.bold = true → s.italic = false →
        applyEmphasis s (r.content.getD "") = "**" ++ r.content.getD "" ++ "**")
    ∧ (s.bold = false → s.italic = true →
        applyEmphasis s (r.content.getD "") = "*" ++ r.content.getD "" ++ "*")
    ∧ (∀ t : String, s.link.isSome = true → applyUnderline s t = t)
    ∧ (∀ (t u : String) (l : DocLink), s.link = some l → l.url = some u → u ≠ "" →
        applyLinkWrap s t = "[" ++ t ++ "](" ++ u ++ ")") := by
  refine ⟨?_, ?_, ?_, ?_, ?_, ?_⟩
  · simp [convertTextRunToMarkdown, h]
  · intro hb hi; simp [applyEmphasis, hb, hi]
  · intro hb hi; simp [applyEmphasis, hb, hi]
  · intro hb hi; simp [applyEmphasis, hb, hi]
  · intro t hl
    have : s.link.isNone = false := by
      cases hs : s.link with
      | none => rw [hs] at hl; simp at hl
      | some l => simp [hs]
    simp [applyUnderline, this]
  · intro t u l hl hu hne; simp [applyLinkWrap, hl, hu, hne]

/-- C7 witness: a bold-italic underlined struck linked run renders with the
triple marker innermost, no underline (the run carries a link), a strike
wrap, and the link wrap outermost. -/
theorem c7_inline_style_composition_witness :
    convertTextRunToMarkdown
      ⟨some "x", some ⟨true, true, true, true, some ⟨some "https://e.x"⟩⟩⟩
      = "[~~***x***~~](https://e.x)" :=
  ((c7_inline_style_composition
      ⟨some "x", some ⟨true, true, true, true, some ⟨some "https://e.x"⟩⟩⟩
      ⟨true, true, true, true, some ⟨some "https://e.x"⟩⟩ rfl).1).trans (by decide)

/-- C5 counterexample: the snapshot whose body content is a present but
empty list is an empty snapshot, yet `convertDocsJsonToMarkdown` renders it
to the empty string, not to the `Document appears to be empty.` sentinel —
so the markdown renderer does not return the sentinel for every empty
snapshot. -/
theorem c5_counterexample :
    convertDocsJsonToMarkdown ⟨some ⟨some []⟩⟩ = ""
    ∧ convertDocsJsonToMarkdown ⟨some ⟨some []⟩⟩ ≠ "Document appears to be empty." := by
  exact ⟨by decide, by decide⟩

/-- C5 as amended: both renderers are total by construction; the markdown
renderer returns its sentinel exactly when `body?.content` is absent (a
present-but-empty content list instead renders to the empty string), and
the plain-text reader returns its sentinel whenever the extracted text is
blank. -/
theorem c5_empty_sentinels :
    (∀ d : DocData, d.body.bind DocBody.content = none →
      convertDocsJsonToMarkdown d = "Document appears to be empty.")
    ∧ (∀ (d : DocData) (m : Option Nat), jsTrim (extractText d) = "" →
      readDocText d m = "Document found, but appears empty.") := by
  constructor
  · intro d hd
    match d with
    | ⟨none⟩ => rfl
    | ⟨some ⟨none⟩⟩ => rfl
    | ⟨some ⟨some elems⟩⟩ => simp [Option.bind] at hd
  · intro d m hd
    unfold readDocText
    rw [if_pos hd]

/-- C5 witness: the fully absent body takes the markdown sentinel, and a
whitespace-only document takes the text sentinel. -/
theorem c5_empty_sentinels_witness :
    convertDocsJsonToMarkdown ⟨none⟩ = "Document appears to be empty."
    ∧ readDocText ⟨none⟩ none = "Document found, but appears empty." :=
  ⟨c5_empty_sentinels.1 ⟨none⟩ rfl,
   c5_empty_sentinels.2 ⟨none⟩ none rfl⟩

/-- A one-paragraph document whose rendered text and markdown are both
`hello` (length 5). -/
def helloDoc : DocData :=
  ⟨some ⟨some [SElem.paragraph ⟨none, false, some [ParaElem.textRun ⟨some "hello", none⟩]⟩]⟩⟩

/-- C3 counterexample: the rendered text of `helloDoc` has length `L = 5`
and the requested `maxLength` is `M = 10 ≥ L`, yet the text branch does not
return the untruncated rendered text unchanged — it wraps it in a
`Content (5 characters):` envelope — so the claim fails as stated. -/
theorem c3_counterexample :
    extractText helloDoc = "hello"
    ∧ jsLength (extractText helloDoc) ≤ 10
    ∧ readDocText helloDoc (some 10) = "Content (5 characters):\n---\nhello"
    ∧ readDocText helloDoc (some 10) ≠ extractText helloDoc := by
  exact ⟨by decide, by decide, by decide, by decide⟩

/-- C3 as amended: truncation is applied only as a final post-processing
step on the fully rendered string.  In the markdown branch, a truthy
`maxLength M` with `M < L` yields the first `M` rendered characters plus a
suffix reporting the requested limit `M` and the true total length `L` (the
elided count `L − M` is only implicit); `M ≥ L` returns the rendered
markdown unchanged; and the markdown output is a function of the fully
rendered string alone.  In the text branch the output is always wrapped in
a `Content` envelope: when `M < L` the envelope header reports only `M` and
the truncated text is followed by a bare ellipsis. -/
theorem c3_truncation_postprocessing (d : DocData) (m : Nat) (hm : 0 < m) :
    (jsLength (convertDocsJsonToMarkdown d) ≤ m →
      readDocMarkdown d (some m) = convertDocsJsonToMarkdown d)
    ∧ (m < jsLength (convertDocsJsonToMarkdown d) →
      readDocMarkdown d (some m)
        = jsTake (convertDocsJsonToMarkdown d) m
          ++ "\n\n... [Markdown truncated to " ++ toString m ++ " chars of "
          ++ toString (jsLength (convertDocsJsonToMarkdown d)) ++ " total.]")
    ∧ (∀ d' : DocData, convertDocsJsonToMarkdown d = convertDocsJsonToMarkdown d' →
      readDocMarkdown d (some m) = readDocMarkdown d' (some m))
    ∧ (jsTrim (extractText d) ≠ "" →
      (m < jsLength (extractText d) →
        readDocText d (some m)
          = "Content (truncated to " ++ toString m ++ " chars):\n---\n"
            ++ jsTake (extractText d) m ++ "\n\n...")
      ∧ (jsLength (extractText d) ≤ m →
        readDocText d (some m)
          = "Content (" ++ toString (jsLength (extractText d)) ++ " characters):\n---\n"
            ++ extractText d)) := by
  refine ⟨?_, ?_, ?_, ?_⟩
  · intro h
    simp only [readDocMarkdown, truncateMarkdown]
    rw [if_neg (by omega)]
  · intro h
    simp only [readDocMarkdown, truncateMarkdown]
    rw [if_pos ⟨by omega, h⟩]
  · intro d' h
    unfold readDocMarkdown
    rw [h]
  · intro hne
    constructor
    · intro h
      simp only [readDocText]
      rw [if_neg hne, if_pos ⟨by omega, h⟩]
    · intro h
      simp only [readDocText]
      rw [if_neg hne, if_neg (by omega)]

/-- C3 witness: on `helloDoc`, `maxLength = 10 ≥ 5` returns the rendered
markdown unchanged, and `maxLength = 3 < 5` returns the three-character
cut plus the suffix reporting the limit 3 and total 5. -/
theorem c3_truncation_postprocessing_witness :
    readDocMarkdown helloDoc (some 10) = convertDocsJsonToMarkdown helloDoc
    ∧ readDocMarkdown helloDoc (some 3)
        = "hel\n\n... [Markdown truncated to 3 chars of 5 total.]"
    ∧ readDocText helloDoc (some 3)
        = "Content (truncated to 3 chars):\n---\nhel\n\n..." := by
  refine ⟨?_, ?_, ?_⟩
  · exact (c3_truncation_postprocessing helloDoc 10 (by decide)).1 (by decide)
  · exact ((c3_truncation_postprocessing helloDoc 3 (by decide)).2.1 (by decide)).trans
      (by decide)
  · exact (((c3_truncation_postprocessing helloDoc 3 (by decide)).2.2.2
      (by decide)).1 (by decide)).trans (by decide)

/-- A managed-environment state whose injected app-registration value is
present but malformed, with a well-formed injected token. -/
def envBadCred : EnvState :=
  ⟨some (.malformed "not json"), some (.wellFormed ⟨some "env-access", some "env-refresh"⟩)⟩

/-- Local credential files that are present and well-formed, with
identifiers distinct from any injected value. -/
def fsGood : FSState :=
  ⟨some (.wellFormed ⟨some ⟨"file-client-id", "file-secret", none⟩, none⟩),
   some (.wellFormed ⟨some "file-access", some "file-refresh"⟩)⟩

/-- Local credential files that are absent. -/
def fsAbsent : FSState := ⟨none, none⟩

/-- C1 counterexample: with both injected secret values present and the
app-registration value failing to parse, credential resolution does not
fail — the loader silently falls back to the local files and `authorize`
returns a handle built entirely from the file contents (visible in its
`file-…` fields), contradicting both halves of the claim. -/
theorem c1_counterexample :
    envBadCred.googleCredentials.isSome = true
    ∧ envBadCred.googleToken.isSome = true
    ∧ loadCredentialsFromEnvOrFile envBadCred fsGood = loadCredentialsFromFiles fsGood
    ∧ authorize envBadCred fsGood
        = AuthOutcome.ok ⟨"file-client-id", "file-secret", "urn:ietf:wg:oauth:2.0:oob",
            ⟨some "file-access", some "file-refresh"⟩⟩ := by
  exact ⟨rfl, rfl, rfl, rfl⟩

/-- C1 as amended: when both injected values are present but either fails to
parse, the loader falls back to the local credential files (so a handle can
be constructed from file contents while injected values are present);
resolution fails — with the Cloud Run credential error rather than any
interactive prompt — only when the file fallback also yields nothing. -/
theorem c1_env_parse_failure_falls_back (env : EnvState) (fs : FSState)
    (cb : JsonBlob CredJson) (tb : JsonBlob TokenJson)
    (hc : env.googleCredentials = some cb) (ht : env.googleToken = some tb)
    (hfail : cb.parse = none ∨ tb.parse = none) :
    loadCredentialsFromEnvOrFile env fs = loadCredentialsFromFiles fs
    ∧ (loadCredentialsFromFiles fs = none →
      authorize env fs
        = .credError "No valid credentials found in Cloud Run environment. Please check Secret Manager configuration.") := by
  have hload : loadCredentialsFromEnvOrFile env fs = loadCredentialsFromFiles fs := by
    unfold loadCredentialsFromEnvOrFile
    rw [hc, ht]
    rcases cb with raw | v
    · rfl
    · rcases tb with raw2 | w
      · rfl
      · simp [JsonBlob.parse] at hfail
  refine ⟨hload, fun hnone => ?_⟩
  unfold authorize
  rw [show loadSavedCredentialsIfExist env fs = none by
    unfold loadSavedCredentialsIfExist
    rw [hload, hnone]]
  rw [if_pos (by rw [hc]; rfl)]

/-- C1 amended witness: with the malformed injected config, resolution falls
back to the files; with the files also absent it fails with the Cloud Run
credential error. -/
theorem c1_env_parse_failure_falls_back_witness :
    loadCredentialsFromEnvOrFile envBadCred fsGood = loadCredentialsFromFiles fsGood
    ∧ authorize envBadCred fsAbsent
        = .credError "No valid credentials found in Cloud Run environment. Please check Secret Manager configuration." :=
  ⟨(c1_env_parse_failure_falls_back envBadCred fsGood (.malformed "not json")
      (.wellFormed ⟨some "env-access", some "env-refresh"⟩) rfl rfl (.inl rfl)).1,
   (c1_env_parse_failure_falls_back envBadCred fsAbsent (.malformed "not json")
      (.wellFormed ⟨some "env-access", some "env-refresh"⟩) rfl rfl (.inl rfl)).2 rfl⟩

/-- C8: whenever the injected credential environment value is present
(managed mode), `authorize` never reaches the interactive
human-in-the-loop flow, and when no saved credentials can be loaded it
fails with the Cloud Run credential error instead of prompting. -/
theorem c8_no_interactive_in_managed (env : EnvState) (fs : FSState)
    (h : env.googleCredentials.isSome = true) :
    authorize env fs ≠ AuthOutcome.interactive
    ∧ (loadSavedCredentialsIfExist env fs = none →
      authorize env fs
        = .credError "No valid credentials found in Cloud Run environment. Please check Secret Manager configuration.") := by
  unfold authorize
  cases hl : loadSavedCredentialsIfExist env fs with
  | some c => exact ⟨by simp, by simp⟩
  | none =>
    rw [if_pos (by simp [h])]
    exact ⟨by simp, fun _ => rfl⟩

/-- C8 witness: in the managed state with a malformed injected config and no
files, nothing loads and `authorize` fails with the credential error (in
particular it is not the interactive outcome). -/
theorem c8_no_interactive_in_managed_witness :
    authorize envBadCred fsAbsent ≠ AuthOutcome.interactive
    ∧ authorize envBadCred fsAbsent
        = .credError "No valid credentials found in Cloud Run environment. Please check Secret Manager configuration." :=
  ⟨(c8_no_interactive_in_managed envBadCred fsAbsent rfl).1,
   (c8_no_interactive_in_managed envBadCred fsAbsent rfl).2 rfl⟩

/-- C9: the resolved handle is cached process-wide — once both clients are
constructed, every later initialization call returns the cached state
without calling `authorize` again (both servers); when construction fails
in the MCP server the cached state is cleared to all-`none` and the next
call resolves from scratch. -/
theorem c9_client_caching :
    (∀ (s : GClientState) (auth : Except String OAuth2ClientModel),
      s.googleDocs.isSome = true → s.googleDrive.isSome = true →
      initializeGoogleClient s auth = (s, .ok s, false)
      ∧ restInitializeGoogleClient s auth = (s, .ok s, false))
    ∧ (∀ (s : GClientState) (e : String), s.authClient = none →
      ¬(s.googleDocs.isSome = true ∧ s.googleDrive.isSome = true) →
      initializeGoogleClient s (.error e)
        = (⟨none, none, none⟩,
           .error "Google client initialization failed. Cannot start server tools.", true))
    ∧ (∀ c : OAuth2ClientModel,
      initializeGoogleClient ⟨none, none, none⟩ (.ok c)
        = (⟨some c, some c, some c⟩, .ok ⟨some c, some c, some c⟩, true)) := by
  refine ⟨?_, ?_, ?_⟩
  · intro s auth hdocs hdrive
    constructor
    · unfold initializeGoogleClient
      rw [if_pos ⟨hdocs, hdrive⟩]
    · unfold restInitializeGoogleClient
      rw [if_pos ⟨hdocs, hdrive⟩]
  · intro s e hauth hnot
    unfold initializeGoogleClient
    rw [if_neg hnot, hauth]
  · intro c
    rfl

/-- A concrete constructed client and the fully cached state built from it. -/
def clientI : OAuth2ClientModel := ⟨"i", "s", "r", ⟨none, none⟩⟩

def sFull : GClientState := ⟨some clientI, some clientI, some clientI⟩

/-- C9 witness: a fully constructed state is returned as-is without calling
`authorize` even when `authorize` would fail; a failed construction from the
empty state clears it, and the retry from the cleared state succeeds. -/
theorem c9_client_caching_witness :
    initializeGoogleClient sFull (.error "boom") = (sFull, .ok sFull, false)
    ∧ initializeGoogleClient ⟨none, none, none⟩ (.error "boom")
      = (⟨none, none, none⟩,
         .error "Google client initialization failed. Cannot start server tools.", true)
    ∧ initializeGoogleClient ⟨none, none, none⟩ (.ok clientI)
      = (⟨some clientI, some clientI, some clientI⟩,
         .ok ⟨some clientI, some clientI, some clientI⟩, true) :=
  ⟨(c9_client_caching.1 sFull (.error "boom") rfl rfl).1,
   c9_client_caching.2.1 ⟨none, none, none⟩ "boom" rfl (by simp),
   c9_client_caching.2.2 clientI⟩

/-- A generic raised error with no code and no message. -/
def errPlain : JsError := ⟨false, none, none⟩

/-- An upstream whose `documents.get` succeeds with a bodyless snapshot and
whose other operations raise. -/
def upGetOk : Upstream :=
  ⟨fun _ => .ok ⟨none⟩, fun _ => .raise errPlain, fun _ _ => .raise errPlain,
   fun _ => .raise errPlain⟩

/-- An upstream whose `documents.get` raises a 403 permission denial. -/
def up403 : Upstream :=
  ⟨fun _ => .raise ⟨false, some 403, some "The caller does not have permission"⟩,
   fun _ => .raise errPlain, fun _ _ => .raise errPlain, fun _ => .raise errPlain⟩

/-- An upstream whose `documents.get` raises an uncoded network-style error. -/
def upBoom : Upstream :=
  ⟨fun _ => .raise ⟨false, none, some "socket hang up"⟩,
   fun _ => .raise errPlain, fun _ _ => .raise errPlain, fun _ => .raise errPlain⟩

/-- C2 counterexample: `readGoogleDoc` dispatched with an argument bag that
is missing the tool's required `documentId` does not return an
InvalidArgument failure naming the field — the dispatcher performs no
schema validation and the call succeeds against a benign upstream. -/
theorem c2_counterexample :
    emptyArgBag.documentId = none
    ∧ restDispatch (some "readGoogleDoc") (some emptyArgBag) (.ok ()) upGetOk
      = ⟨200, true, none, some "Document Content:\n---\n"⟩ := by
  exact ⟨rfl, by decide⟩

/-- C2 as amended: in the REST dispatcher only `createDocument` checks its
required field — a falsy `title` yields a generic 500 failure whose message
names the field (`Failed to create document: title is required`), not a
distinguished InvalidArgument kind; every other tool proceeds without
required-field validation (`readGoogleDoc` dispatches the possibly absent
`documentId` straight to the upstream call and succeeds whenever the
upstream does). -/
theorem c2_only_createDocument_validates :
    (∀ (args : ArgBag) (up : Upstream), (args.title = none ∨ args.title = some "") →
      restDispatch (some "createDocument") (some args) (.ok ()) up
        = ⟨500, false, some "Failed to create document: title is required", none⟩)
    ∧ (∀ (args : ArgBag) (up : Upstream) (d : DocData),
      up.getDoc args.documentId = JsCall.ok d →
      (restDispatch (some "readGoogleDoc") (some args) (.ok ()) up).success = true) := by
  constructor
  · intro args up h
    rcases h with h | h <;>
      simp [restDispatch, restToolExecute, execCreateDocument, toolNames, h]
  · intro args up d h
    simp [restDispatch, restToolExecute, execReadGoogleDoc, toolNames, h]

/-- C2 witness: the empty bag against `createDocument` produces the 500
naming `title`; against `readGoogleDoc` with a benign upstream the dispatch
succeeds. -/
theorem c2_only_createDocument_validates_witness :
    restDispatch (some "createDocument") (some emptyArgBag) (.ok ()) upGetOk
      = ⟨500, false, some "Failed to create document: title is required", none⟩
    ∧ (restDispatch (some "readGoogleDoc") (some emptyArgBag) (.ok ()) upGetOk).success
      = true :=
  ⟨c2_only_createDocument_validates.1 emptyArgBag upGetOk (.inl rfl),
   c2_only_createDocument_validates.2 emptyArgBag upGetOk ⟨none⟩ rfl⟩

/-- C4 counterexample: at the REST dispatch boundary an upstream 403
permission denial is not classified into a distinct PermissionDenied kind —
it produces exactly the same generic `⟨500, success := false⟩` shape as an
uncoded internal failure, differing only in the wrapped message text. -/
theorem c4_counterexample :
    restDispatch (some "readGoogleDoc") (some emptyArgBag) (.ok ()) up403
      = ⟨500, false, some "Failed to read document: The caller does not have permission",
          none⟩
    ∧ restDispatch (some "readGoogleDoc") (some emptyArgBag) (.ok ()) upBoom
      = ⟨500, false, some "Failed to read document: socket hang up", none⟩
    ∧ (restDispatch (some "readGoogleDoc") (some emptyArgBag) (.ok ()) up403).status
      = (restDispatch (some "readGoogleDoc") (some emptyArgBag) (.ok ()) upBoom).status := by
  exact ⟨by decide, by decide, by decide⟩

/-- C4 as amended: the MCP server's `readGoogleDoc` handler classifies
upstream failures — code 403 to the permission-denied `UserError`, code 404
to the not-found `UserError`, anything else to the internal `UserError`
carrying the underlying message — and by construction every outcome is a
success or a `UserError`, never a raw exception.  The REST dispatcher does
not classify: every handler failure is caught and returned as a generic 500
`{success:false, error}` response carrying the wrapped message. -/
theorem c4_error_classification :
    (∀ (id : String) (m : Option Nat) (e : JsError), e.isUserError = false →
      e.code = some 403 →
      readGoogleDocExecText id m (.raise e)
        = .userError ("Permission denied for doc (ID: " ++ id ++ ")."))
    ∧ (∀ (id : String) (m : Option Nat) (e : JsError), e.isUserError = false →
      e.code = some 404 →
      readGoogleDocExecText id m (.raise e)
        = .userError ("Doc not found (ID: " ++ id ++ ")."))
    ∧ (∀ (id : String) (m : Option Nat) (e : JsError) (msg : String),
      e.isUserError = false → e.code ≠ some 403 → e.code ≠ some 404 →
      e.message = some msg → msg ≠ "" →
      readGoogleDocExecText id m (.raise e)
        = .userError ("Failed to read doc: " ++ msg))
    ∧ (∀ (args : ArgBag) (up : Upstream) (e : JsError),
      up.getDoc args.documentId = JsCall.raise e →
      restDispatch (some "readGoogleDoc") (some args) (.ok ()) up
        = ⟨500, false, some ("Failed to read document: " ++ jsTemplate e.message),
            none⟩) := by
  refine ⟨?_, ?_, ?_, ?_⟩
  · intro id m e hu h403
    simp [readGoogleDocExecText, readGoogleDocCatch, hu, h403]
  · intro id m e hu h404
    simp [readGoogleDocExecText, readGoogleDocCatch, hu, h404]
  · intro id m e msg hu h403 h404 hmsg hne
    simp [readGoogleDocExecText, readGoogleDocCatch, jsMsgOrUnknown, hu, h403, h404, hmsg,
      hne]
  · intro args up e h
    simp [restDispatch, restToolExecute, execReadGoogleDoc, toolNames, h]

/-- C4 witness: the MCP handler maps a 403 to the permission-denied
`UserError`, and the REST dispatcher maps an uncoded failure to the generic
wrapped 500. -/
theorem c4_error_classification_witness :
    readGoogleDocExecText "doc1" none (.raise ⟨false, some 403, some "perm"⟩)
      = .userError "Permission denied for doc (ID: doc1)."
    ∧ restDispatch (some "readGoogleDoc") (some emptyArgBag) (.ok ()) upBoom
      = ⟨500, false, some "Failed to read document: socket hang up", none⟩ :=
  ⟨(c4_error_classification.1 "doc1" none ⟨false, some 403, some "perm"⟩ rfl rfl).trans
     (by decide),
   (c4_error_classification.2.2.2 emptyArgBag upBoom ⟨false, none, some "socket hang up"⟩
     rfl).trans (by decide)⟩
